import Mathlib

/-!
Shallow embedding of `conf/loader.go` from the shuttle repository.

External collaborators (the storage registry, the encoding registry, the
downstream apply hooks) live outside `src/`; they are modelled as
environments of abstract results.  Every external call appends an `Event`
to an explicit trace, so that claims about which effects happen, and in
which order, can be stated.  `M α` abbreviates the trace-threading shape
`List Event → Except GoErr α × List Event`.
-/

/-- Observable effects performed by the loader code, in program order. -/
inductive Event where
  | storageGet (typ : String)
  | marshalGet (encode : String)
  | load (storageName : String)
  | save (storageName : String) (data : List Nat)
  | notify (storageName : String)
  | unmarshalData
  | marshalData
  | lock
  | unlock
  | addProfile (name : String)
  | addNamespace (name : String)
  deriving Repr, DecidableEq

/-- Go error values as used by the loader: a distinguished not-found error
(`os.IsNotExist`), plain messages, and `errors.Wrapf`-style wrapping. -/
inductive GoErr where
  | notFound
  | msg (s : String)
  | wrap (stage : String) (err : GoErr)
  deriving Repr, DecidableEq

/-- The `errors.Cause` function of pkg/errors: strip all wrapping layers. -/
def GoErr.cause : GoErr → GoErr
  | .wrap _ e => e.cause
  | e => e

/-- The `os.IsNotExist` test applied to an (already unwrapped) error. -/
def GoErr.isNotExist : GoErr → Bool
  | .notFound => true
  | _ => false

/-- Whether an error carries at least one `errors.Wrapf` layer. -/
def GoErr.isWrap : GoErr → Bool
  | .wrap _ _ => true
  | _ => false

/-- Trace-threading computation: the effect log is passed and extended. -/
abbrev M (α : Type) : Type := List Event → Except GoErr α × List Event

/-- A storage reference from the configuration's `Include` list. -/
structure StorageRef where
  Typ : String
  Params : List (String × String)
  deriving Repr, DecidableEq

/-- The `model.Info` part of the configuration (only `Name` is used here). -/
structure Info where
  Name : String
  deriving Repr, DecidableEq

/-- The `model.Config` structure: the `Include` list, the `Info` block, and
a generic key-value payload standing for all remaining decoded fields. -/
structure Config where
  Include : List StorageRef
  Info : Info
  Fields : List (String × String)
  deriving Repr, DecidableEq

/-- The zero value `new(model.Config)` produced by Go. -/
def Config.empty : Config := { Include := [], Info := { Name := "" }, Fields := [] }

/-- A storage instance as obtained from the storage registry: its display
name and the results its `Load`, `Save` and `RegisterNotify` calls return. -/
structure IStorage where
  Name : String
  loadResult : Except GoErr (List Nat)
  saveResult : List Nat → Except GoErr Unit
  notifyResult : Except GoErr Unit

/-- A codec instance for configuration values: `UnMarshal(data, target)`
decodes bytes on top of an existing `Config` value. -/
structure IMarshal where
  unmarshal : List Nat → Config → Except GoErr Config

/-- The storage and encoding registries consulted by `LoadConfig`. -/
structure CEnv where
  storageGet : String → List (String × String) → Except GoErr IStorage
  marshalGet : String → List (String × String) → Except GoErr IMarshal

/-- The include loop of `LoadConfig`: for each include reference, resolve
its storage, load its bytes, append a newline (byte 10) and the bytes to
the merge buffer, and register the change notification. -/
def loadIncludes (env : CEnv) : List StorageRef → List Nat → M (List Nat)
  | [], buf => fun log => (.ok buf, log)
  | v :: rest, buf => fun log =>
    match env.storageGet v.Typ v.Params with
    | .error e => (.error e, log ++ [.storageGet v.Typ])
    | .ok c =>
      match c.loadResult with
      | .error e => (.error e, log ++ [.storageGet v.Typ, .load c.Name])
      | .ok data =>
        match c.notifyResult with
        | .error e => (.error e, log ++ [.storageGet v.Typ, .load c.Name, .notify c.Name])
        | .ok _ =>
          loadIncludes env rest (buf ++ 10 :: data)
            (log ++ [.storageGet v.Typ, .load c.Name, .notify c.Name])

/-- Embedding of `LoadConfig`: resolve the primary storage, load its bytes,
resolve the codec, decode into a fresh `Config`, register the notification,
run the include loop on a buffer seeded with the primary bytes, re-decode
the whole buffer into the same `Config`, and finally set `Info.Name` from
the primary storage's name. -/
def LoadConfig (env : CEnv) (typ encode : String) (params : List (String × String)) : M Config :=
  fun log =>
    match env.storageGet typ params with
    | .error e => (.error e, log ++ [.storageGet typ])
    | .ok s =>
      match s.loadResult with
      | .error e => (.error e, log ++ [.storageGet typ, .load s.Name])
      | .ok data =>
        match env.marshalGet encode params with
        | .error e => (.error e, log ++ [.storageGet typ, .load s.Name, .marshalGet encode])
        | .ok m =>
          match m.unmarshal data Config.empty with
          | .error e =>
            (.error e, log ++ [.storageGet typ, .load s.Name, .marshalGet encode, .unmarshalData])
          | .ok config =>
            match s.notifyResult with
            | .error e =>
              (.error e, log ++ [.storageGet typ, .load s.Name, .marshalGet encode,
                .unmarshalData, .notify s.Name])
            | .ok _ =>
              match loadIncludes env config.Include data
                  (log ++ [.storageGet typ, .load s.Name, .marshalGet encode,
                    .unmarshalData, .notify s.Name]) with
              | (.error e, log2) => (.error e, log2)
              | (.ok buffer, log2) =>
                match m.unmarshal buffer config with
                | .error e => (.error e, log2 ++ [.unmarshalData])
                | .ok config2 =>
                  (.ok { config2 with Info := { Name := s.Name } }, log2 ++ [.unmarshalData])

/-- Spec-side helper for the merge property: the bytes contributed by the
includes in declaration order, each preceded by a single newline byte. -/
def includeBytesSpec (env : CEnv) : List StorageRef → Except GoErr (List Nat)
  | [] => .ok []
  | v :: rest =>
    match env.storageGet v.Typ v.Params with
    | .error e => .error e
    | .ok c =>
      match c.loadResult with
      | .error e => .error e
      | .ok d =>
        match includeBytesSpec env rest with
        | .error e => .error e
        | .ok t => .ok (10 :: d ++ t)

/-- Spec-side definition, written from the claim's words and not from the
source: decode the primary bytes into a fresh `Config`, then re-decode,
into that same object, the concatenation of the primary bytes followed by,
for each include in declaration order, a newline and that include's bytes. -/
def mergeDecodeSpec (env : CEnv) (typ encode : String) (params : List (String × String)) :
    Except GoErr Config :=
  match env.storageGet typ params with
  | .error e => .error e
  | .ok s =>
    match s.loadResult with
    | .error e => .error e
    | .ok data =>
      match env.marshalGet encode params with
      | .error e => .error e
      | .ok m =>
        match m.unmarshal data Config.empty with
        | .error e => .error e
        | .ok c1 =>
          match includeBytesSpec env c1.Include with
          | .error e => .error e
          | .ok tail => m.unmarshal (data ++ tail) c1

/-- Modelled from the spec: `rule.Rule` lives outside `src/`; the fields the
loader uses are the rule category `Typ`, the target `Proxy`, and the owning
`Profile` name. -/
structure Rule where
  Typ : String
  Proxy : String
  Profile : String
  deriving Repr, DecidableEq

/-- Modelled from the spec: `constant.ModeDirect` forces type `DIRECT`. -/
def ModeDirect : String := "DIRECT"

/-- Modelled from the spec: `constant.ModeGlobal` forces type `GLOBAL`. -/
def ModeGlobal : String := "GLOBAL"

/-- Modelled from the spec: the request context carries the active
namespace; `namespace.NamespaceWithContext(ctx).Mode()` reads its mode. -/
structure Ctx where
  Mode : String

/-- Modelled from the spec: request metadata consumed by rule handles; its
contents are opaque to the loader. -/
structure RequestInfo where
  host : String

/-- A rule handle: a decision function from context and request metadata to
a routing rule. -/
abbrev Handle : Type := Ctx → RequestInfo → Rule

/-- An opaque DNS handle; `ruleModeHandle` ignores its DNS argument and
`ApplyConfig` passes `nil` (here `none`). -/
abbrev DNSHandle : Type := Option Nat

/-- Embedding of `ruleModeHandle`: read the namespace mode from the context;
on `ModeDirect` or `ModeGlobal` return the shared rule updated in place,
otherwise delegate to the wrapped chain. -/
def ruleModeHandle (r : Rule) (next : Handle) (_h : DNSHandle) : Handle :=
  fun ctx info =>
    if ctx.Mode = ModeDirect then
      { r with Typ := ModeDirect, Proxy := "DIRECT" }
    else if ctx.Mode = ModeGlobal then
      { r with Typ := ModeGlobal, Proxy := "GLOBAL" }
    else next ctx info

/-- Modelled from the spec: `server.Direct`, the configured direct target
name, lives outside `src/`. -/
def server.Direct : String := "DIRECT"

/-- A server produced by `server.ApplyConfig`; only its name is consumed. -/
structure Server where
  Name : String

/-- A group produced by `group.ApplyConfig`; only its name is consumed. -/
structure GroupInst where
  Name : String

/-- Opaque DNS cache handed back by `dns.ApplyConfig`. -/
abbrev DNSCache : Type := Option Nat

/-- Opaque filter handle handed back by `filter.ApplyConfig`. -/
abbrev FilterHandle : Type := Option Nat

/-- Opaque stream processor handed back by `stream.ApplyConfig`. -/
abbrev StreamHandle : Type := Option Nat

/-- Opaque profile value produced by `global.NewProfile`. -/
abbrev Profile : Type := Nat

/-- The `defaultRule` fallback of `ApplyConfig`: type `FINAL`, proxy
`server.Direct`, zero-valued profile. -/
def defaultRule : Rule := { Typ := "FINAL", Proxy := server.Direct, Profile := "" }

/-- The proxy-name universe built by `ApplyConfig`: all server names then
all group names. -/
def proxyNames (servers : List Server) (groups : List GroupInst) : List String :=
  servers.map Server.Name ++ groups.map GroupInst.Name

/-- Arguments handed to `global.NewProfile`. -/
structure ProfileArgs where
  config : Config
  dnsHandle : DNSHandle
  dnsCache : DNSCache
  ruleHandle : Handle
  udpRuleHandle : Handle
  groups : List GroupInst
  servers : List Server
  filterHandle : FilterHandle
  before : StreamHandle
  after : StreamHandle

/-- The exact `ProfileArgs` value `ApplyConfig` assembles: both rule chains
are wrapped by `ruleModeHandle` around a shared rule carrying the profile
name, with a `nil` DNS handle. -/
def profileArgsOf (config : Config) (d : DNSHandle) (c : DNSCache) (rh urh : Handle)
    (gp : List GroupInst) (sv : List Server) (f : FilterHandle) (bf af : StreamHandle) :
    ProfileArgs :=
  { config := config, dnsHandle := d, dnsCache := c,
    ruleHandle := ruleModeHandle { Typ := "", Proxy := "", Profile := config.Info.Name } rh none,
    udpRuleHandle :=
      ruleModeHandle { Typ := "", Proxy := "", Profile := config.Info.Name } urh none,
    groups := gp, servers := sv, filterHandle := f, before := bf, after := af }

/-- Results of the external collaborators invoked by `ApplyConfig`, one per
downstream apply hook, plus `global.NewProfile`. -/
structure ApplyEnv where
  pluginApply : Except GoErr Unit
  dnsApply : Except GoErr (DNSHandle × DNSCache)
  serverApply : DNSHandle → Except GoErr (List Server)
  groupApply : List Server → DNSHandle → Except GoErr (List GroupInst)
  ruleApply : Bool → List String → Rule → DNSHandle → Except GoErr Handle
  filterApply : Except GoErr FilterHandle
  streamApply : Except GoErr (StreamHandle × StreamHandle)
  newProfile : ProfileArgs → Except GoErr Profile

/-- Embedding of `ApplyConfig`: run the apply stages in order, wrapping the
stage errors exactly as the source does (server and group errors are
returned as-is), wrap both rule chains with `ruleModeHandle`, build the
profile, and only then publish via `global.AddProfile` and
`namespace.AddNamespace` (the two trace events). -/
def ApplyConfig (env : ApplyEnv) (config : Config) : M Unit :=
  fun log =>
    match env.pluginApply with
    | .error e => (.error (.wrap "[plugin.ApplyConfig] failed" e), log)
    | .ok _ =>
      match env.dnsApply with
      | .error e => (.error (.wrap "[dns.ApplyConfig] failed" e), log)
      | .ok (dnsHandle, dnsCache) =>
        match env.serverApply dnsHandle with
        | .error e => (.error e, log)
        | .ok servers =>
          match env.groupApply servers dnsHandle with
          | .error e => (.error e, log)
          | .ok groups =>
            match env.ruleApply false (proxyNames servers groups) defaultRule dnsHandle with
            | .error e => (.error (.wrap "[rule.ApplyConfig] failed" e), log)
            | .ok rh =>
              match env.ruleApply true (proxyNames servers groups) defaultRule dnsHandle with
              | .error e => (.error (.wrap "[rule.ApplyConfig] failed" e), log)
              | .ok urh =>
                match env.filterApply with
                | .error e => (.error (.wrap "[filter.ApplyConfig] failed" e), log)
                | .ok filterHandle =>
                  match env.streamApply with
                  | .error e => (.error (.wrap "[stream.ApplyConfig] failed" e), log)
                  | .ok (bf, af) =>
                    match env.newProfile
                        (profileArgsOf config dnsHandle dnsCache rh urh groups servers
                          filterHandle bf af) with
                    | .error e => (.error (.wrap "create profile failed" e), log)
                    | .ok _profile =>
                      (.ok (), log ++ [.addProfile config.Info.Name, .addNamespace "default"])

/-- A codec instance for the runtime store's generic string-keyed map. -/
structure RMarshal (V : Type) where
  unmarshal : List Nat → List (String × V) → Except GoErr (List (String × V))
  marshal : List (String × V) → Except GoErr (List Nat)

/-- The registries consulted by `LoadRuntime`. -/
structure REnv (V : Type) where
  storageGet : String → List (String × String) → Except GoErr IStorage
  marshalGet : String → List (String × String) → Except GoErr (RMarshal V)

/-- The `runtime` struct: the in-memory map, the storage and codec handles,
and the embedded (never locked) mutex, modelled as a unit field. -/
structure Runtime (V : Type) where
  value : List (String × V)
  s : IStorage
  m : RMarshal V
  Mutex : Unit

/-- Go map read `m[key]`: `none` models the zero value for a missing key. -/
def mapGet {V : Type} : List (String × V) → String → Option V
  | [], _ => none
  | (k, v) :: rest, key => if k = key then some v else mapGet rest key

/-- Go map write `m[key] = val`: overwrite an existing binding or append. -/
def mapSet {V : Type} : List (String × V) → String → V → List (String × V)
  | [], key, val => [(key, val)]
  | (k, v) :: rest, key, val =>
    if k = key then (key, val) :: rest else (k, v) :: mapSet rest key val

/-- Embedding of `LoadRuntime`: resolve storage; on a load error whose cause
is not-found, heal by saving an empty payload and continuing with empty
bytes; resolve the codec; decode only when the payload is non-empty. -/
def LoadRuntime {V : Type} (env : REnv V) (typ encode : String)
    (params : List (String × String)) : M (Runtime V) :=
  fun log =>
    match env.storageGet typ params with
    | .error e => (.error e, log ++ [.storageGet typ])
    | .ok s =>
      let afterLoad : Except GoErr (List Nat) × List Event :=
        match s.loadResult with
        | .ok d => (.ok d, log ++ [.storageGet typ, .load s.Name])
        | .error e =>
          if (GoErr.cause e).isNotExist then
            match s.saveResult [] with
            | .ok _ => (.ok [], log ++ [.storageGet typ, .load s.Name, .save s.Name []])
            | .error e2 => (.error e2, log ++ [.storageGet typ, .load s.Name, .save s.Name []])
          else (.error e, log ++ [.storageGet typ, .load s.Name])
      match afterLoad with
      | (.error e, log1) => (.error e, log1)
      | (.ok data, log1) =>
        match env.marshalGet encode params with
        | .error e => (.error e, log1 ++ [.marshalGet encode])
        | .ok m =>
          if 0 < data.length then
            match m.unmarshal data [] with
            | .error e => (.error e, log1 ++ [.marshalGet encode, .unmarshalData])
            | .ok config =>
              (.ok { value := config, s := s, m := m, Mutex := () },
                log1 ++ [.marshalGet encode, .unmarshalData])
          else
            (.ok { value := [], s := s, m := m, Mutex := () }, log1 ++ [.marshalGet encode])

/-- Embedding of `runtime.Get`: a plain map read, no locking, no errors. -/
def Runtime.Get {V : Type} (r : Runtime V) (key : String) : Option V :=
  mapGet r.value key

/-- Embedding of `runtime.Set`: mutate the in-memory map first, then encode
the whole map, then save; the mutated runtime is kept even when encoding or
saving fails (the receiver is mutated in place in the source). No locking
is performed. -/
def Runtime.Set {V : Type} (r : Runtime V) (key : String) (val : V) :
    List Event → (Runtime V × Option GoErr) × List Event :=
  fun log =>
    match r.m.marshal (mapSet r.value key val) with
    | .error e => (({ r with value := mapSet r.value key val }, some e), log ++ [.marshalData])
    | .ok data =>
      match r.s.saveResult data with
      | .error e =>
        (({ r with value := mapSet r.value key val }, some e),
          log ++ [.marshalData, .save r.s.Name data])
      | .ok _ =>
        (({ r with value := mapSet r.value key val }, none),
          log ++ [.marshalData, .save r.s.Name data])

/-- Event classifier: the trace entries that a `sync.Mutex` acquisition or
release would produce. -/
def Event.isLock : Event → Bool
  | .lock => true
  | .unlock => true
  | _ => false

/-- A concrete storage instance: one byte of payload, everything succeeds. -/
def s1 : IStorage :=
  { Name := "primary", loadResult := .ok [97],
    saveResult := fun _ => .ok (), notifyResult := .ok () }

/-- The identity configuration codec: decoding leaves the target unchanged. -/
def mId : IMarshal := { unmarshal := fun _ c => .ok c }

/-- A registry environment where every lookup succeeds. -/
def envId : CEnv := { storageGet := fun _ _ => .ok s1, marshalGet := fun _ _ => .ok mId }

/-- A registry environment whose encoding lookup always fails. -/
def envNoCodec : CEnv :=
  { storageGet := fun _ _ => .ok s1, marshalGet := fun _ _ => .error (.msg "unknown encoding") }

/-- A registry environment whose storage lookup always fails. -/
def envNoStorage : CEnv :=
  { storageGet := fun _ _ => .error (.msg "unknown storage"), marshalGet := fun _ _ => .ok mId }

/-- A runtime codec whose encode step always fails. -/
def rmFail : RMarshal String :=
  { unmarshal := fun _ m => .ok m, marshal := fun _ => .error (.msg "encode failed") }

/-- A runtime codec whose encode step succeeds with a fixed payload. -/
def rmOK : RMarshal String :=
  { unmarshal := fun _ m => .ok m, marshal := fun _ => .ok [107] }

/-- A runtime store whose encode step always fails. -/
def rtFail : Runtime String := { value := [], s := s1, m := rmFail, Mutex := () }

/-- A runtime store whose encode and save steps succeed. -/
def rtPlain : Runtime String := { value := [], s := s1, m := rmOK, Mutex := () }

/-- A storage instance reporting a not-found condition on load. -/
def sNF : IStorage :=
  { Name := "kv", loadResult := .error .notFound,
    saveResult := fun _ => .ok (), notifyResult := .ok () }

/-- A runtime registry environment whose storage reports not-found. -/
def renvNF : REnv String :=
  { storageGet := fun _ _ => .ok sNF, marshalGet := fun _ _ => .ok rmOK }

/-- A trivial rule chain returning the default rule. -/
def chainA : Handle := fun _ _ => defaultRule

/-- A rule chain returning a distinctive domain rule. -/
def chainB : Handle := fun _ _ => { Typ := "DOMAIN", Proxy := "PROXY1", Profile := "" }

/-- An apply environment whose server stage fails and all others succeed. -/
def envSrvFail : ApplyEnv :=
  { pluginApply := .ok (), dnsApply := .ok (none, none),
    serverApply := fun _ => .error (.msg "server boom"),
    groupApply := fun _ _ => .ok [], ruleApply := fun _ _ _ _ => .ok chainA,
    filterApply := .ok none, streamApply := .ok (none, none),
    newProfile := fun _ => .ok 0 }

/-- An apply environment whose plugin stage fails and all others succeed. -/
def envPlugFail : ApplyEnv :=
  { envSrvFail with
    pluginApply := .error (.msg "plugin boom"),
    serverApply := fun _ => .ok [] }

/-- An apply environment where every stage succeeds. -/
def envAllOK : ApplyEnv := { envSrvFail with serverApply := fun _ => .ok [] }

/-- Helper: writing a key makes it readable back from the map. -/
lemma mapGet_mapSet {V : Type} (m : List (String × V)) (key : String) (val : V) :
    mapGet (mapSet m key val) key = some val := by
  induction m with
  | nil => simp [mapSet, mapGet]
  | cons p rest ih =>
    obtain ⟨k, v⟩ := p
    by_cases h : k = key
    · simp [mapSet, mapGet, h]
    · simp [mapSet, mapGet, h, ih]

/-- Helper: a key bound by no entry reads back as `none`. -/
lemma mapGet_eq_none {V : Type} (m : List (String × V)) (k : String)
    (h : ∀ p ∈ m, p.1 ≠ k) : mapGet m k = none := by
  induction m with
  | nil => rfl
  | cons p rest ih =>
    obtain ⟨k0, v0⟩ := p
    have hk : k0 ≠ k := h (k0, v0) (by simp)
    simp only [mapGet, hk, if_false]
    exact ih fun q hq => h q (by simp [hq])

/-- Helper: the runtime returned by `Set` always carries the updated map,
whatever the encode and save outcomes were. -/
lemma runtime_set_runtime {V : Type} (r : Runtime V) (key : String) (val : V)
    (log : List Event) :
    (r.Set key val log).1.1 = { r with value := mapSet r.value key val } := by
  unfold Runtime.Set
  split
  · rfl
  · split <;> rfl

/-- C3: `Set(k, v)` followed by `Get(k)` returns `v`, even when `Set`
reported an encode or persistence error (the map is mutated before any
encoding or save is attempted), and `Get` returns the absent value for an
unset key and never errors (its type has no error channel). -/
theorem runtime_set_then_get {V : Type} (r : Runtime V) (key : String) (val : V)
    (log : List Event) :
    ((r.Set key val log).1.1).Get key = some val ∧
    ((r.Set key val log).1.1).value = mapSet r.value key val ∧
    (∀ (r0 : Runtime V) (k : String), (∀ p ∈ r0.value, p.1 ≠ k) → r0.Get k = none) := by
  refine ⟨?_, ?_, fun r0 k h => mapGet_eq_none r0.value k h⟩
  · rw [runtime_set_runtime]
    show mapGet (mapSet r.value key val) key = some val
    exact mapGet_mapSet r.value key val
  · rw [runtime_set_runtime]

/-- Witness for C3 at a store whose encode step fails: the set value is
still read back, the error is reported, and a missing key reads `none`. -/
theorem runtime_set_then_get_witness :
    ((rtFail.Set "k" "v" []).1.1).Get "k" = some "v" ∧
    (rtFail.Set "k" "v" []).1.2 = some (.msg "encode failed") ∧
    rtFail.Get "missing" = none :=
  ⟨(runtime_set_then_get rtFail "k" "v" []).1, rfl,
   (runtime_set_then_get rtFail "k" "v" []).2.2 rtFail "missing" (by simp [rtFail])⟩

/-- C4 (code bug): neither `Get` nor `Set` ever acquires the embedded
mutex.  `Get` is a pure map read with no effect trace at all, and the trace
of `Set` contains no lock or unlock event: the code performs the whole
read-modify-encode-save sequence without the serialization the spec
promises. -/
theorem runtime_get_set_no_lock (r : Runtime String) (key val : String) (log : List Event) :
    ((r.Set key val log).2.filter Event.isLock = log.filter Event.isLock) ∧
    (rtPlain.Set "k" "v" []).2 = [.marshalData, .save "primary" [107]] ∧
    rtPlain.Get "k" = none := by
  refine ⟨?_, rfl, rfl⟩
  unfold Runtime.Set
  split
  · simp [Event.isLock]
  · split <;> simp [Event.isLock]

/-- C10: when encoding the map fails during `Set`, no save event is
emitted (the trace gains only the encode attempt), so the persisted
payload is exactly what it was before the call; only the in-memory map and
the reported error change. -/
theorem runtime_set_encode_fail_no_save {V : Type} (r : Runtime V) (key : String) (val : V)
    (log : List Event) (e : GoErr)
    (h : r.m.marshal (mapSet r.value key val) = .error e) :
    r.Set key val log =
      (({ r with value := mapSet r.value key val }, some e), log ++ [.marshalData]) := by
  unfold Runtime.Set
  rw [h]

/-- Witness for C10 at the concrete failing-codec store. -/
theorem runtime_set_encode_fail_no_save_witness :
    rtFail.Set "k" "v" [] =
      (({ rtFail with value := [("k", "v")] }, some (.msg "encode failed")), [.marshalData]) :=
  runtime_set_encode_fail_no_save rtFail "k" "v" [] (.msg "encode failed") rfl


/-- C2: the mode-override decorated handle returns the shared rule updated
to type `DIRECT` / proxy `"DIRECT"` when the context's namespace mode is
Direct, to type `GLOBAL` / proxy `"GLOBAL"` when it is Global — in both
cases independently of the wrapped chain, which is never consulted — and
otherwise returns exactly the wrapped chain's result. -/
theorem ruleModeHandle_override (r : Rule) (next next2 : Handle) (h : DNSHandle)
    (ctx : Ctx) (info : RequestInfo) :
    (ctx.Mode = ModeDirect →
      ruleModeHandle r next h ctx info = { r with Typ := ModeDirect, Proxy := "DIRECT" } ∧
      ruleModeHandle r next h ctx info = ruleModeHandle r next2 h ctx info) ∧
    (ctx.Mode = ModeGlobal →
      ruleModeHandle r next h ctx info = { r with Typ := ModeGlobal, Proxy := "GLOBAL" } ∧
      ruleModeHandle r next h ctx info = ruleModeHandle r next2 h ctx info) ∧
    (ctx.Mode ≠ ModeDirect → ctx.Mode ≠ ModeGlobal →
      ruleModeHandle r next h ctx info = next ctx info) := by
  refine ⟨fun hd => ?_, fun hg => ?_, fun hnd hng => ?_⟩
  · constructor <;> simp [ruleModeHandle, hd]
  · have hne : ModeGlobal ≠ ModeDirect := by decide
    constructor <;> simp [ruleModeHandle, hg, hne]
  · simp [ruleModeHandle, hnd, hng]

/-- Witness for C2 at concrete contexts in all three modes, against a chain
that would return a distinctive domain rule. -/
theorem ruleModeHandle_override_witness :
    ruleModeHandle defaultRule chainB none ⟨ModeDirect⟩ ⟨"example.com"⟩ =
      { defaultRule with Typ := ModeDirect, Proxy := "DIRECT" } ∧
    ruleModeHandle defaultRule chainB none ⟨ModeGlobal⟩ ⟨"example.com"⟩ =
      { defaultRule with Typ := ModeGlobal, Proxy := "GLOBAL" } ∧
    ruleModeHandle defaultRule chainB none ⟨"RULE"⟩ ⟨"example.com"⟩ =
      chainB ⟨"RULE"⟩ ⟨"example.com"⟩ :=
  ⟨((ruleModeHandle_override defaultRule chainB chainA none ⟨ModeDirect⟩ ⟨"example.com"⟩).1
      rfl).1,
   ((ruleModeHandle_override defaultRule chainB chainA none ⟨ModeGlobal⟩ ⟨"example.com"⟩).2.1
      rfl).1,
   (ruleModeHandle_override defaultRule chainB chainA none ⟨"RULE"⟩ ⟨"example.com"⟩).2.2
      (by decide) (by decide)⟩

/-- C5: when the storage's load reports a cause that is not-found, an empty
payload is saved and `LoadRuntime` succeeds with an empty map (the
not-found error is not propagated); and when the loaded payload is empty
the decoder is never invoked (no decode event in the trace) and the map is
empty. -/
theorem loadRuntime_empty_heal {V : Type} (env : REnv V) (typ encode : String)
    (params : List (String × String)) (log : List Event) (s : IStorage) (m : RMarshal V)
    (hs : env.storageGet typ params = .ok s)
    (hm : env.marshalGet encode params = .ok m) :
    (∀ e, s.loadResult = .error e → (GoErr.cause e).isNotExist = true →
      s.saveResult [] = .ok () →
      LoadRuntime env typ encode params log =
        (.ok { value := [], s := s, m := m, Mutex := () },
         log ++ [.storageGet typ, .load s.Name, .save s.Name [], .marshalGet encode])) ∧
    (s.loadResult = .ok [] →
      LoadRuntime env typ encode params log =
        (.ok { value := [], s := s, m := m, Mutex := () },
         log ++ [.storageGet typ, .load s.Name, .marshalGet encode])) := by
  constructor
  · intro e hl hnf hsave
    simp [LoadRuntime, hs, hl, hnf, hsave, hm]
  · intro hl
    simp [LoadRuntime, hs, hl, hm]

/-- Witness for C5 at a concrete not-found storage: the load succeeds, the
map is empty, and the trace records exactly the empty-payload save with no
decode event. -/
theorem loadRuntime_empty_heal_witness :
    LoadRuntime renvNF "file" "json" [] [] =
      (.ok { value := [], s := sNF, m := rmOK, Mutex := () },
       [.storageGet "file", .load "kv", .save "kv" [], .marshalGet "json"]) :=
  (loadRuntime_empty_heal renvNF "file" "json" [] [] sNF rmOK rfl rfl).1 .notFound rfl rfl rfl

/-- Counterexample to C6 as stated: with every earlier stage succeeding, a
failing server stage makes `ApplyConfig` return the collaborator's error
verbatim, with no stage name wrapped around it. -/
theorem applyConfig_server_error_unwrapped :
    (ApplyConfig envSrvFail Config.empty []).1 = .error (.msg "server boom") ∧
    GoErr.isWrap (.msg "server boom") = false :=
  ⟨rfl, rfl⟩

/-- C6 (amended): plugin, DNS, rule (TCP and UDP), filter and stream
failures are wrapped with the failing stage's name, and profile creation
with "create profile failed"; server and group failures abort `ApplyConfig`
but are returned unchanged, without any stage name attached. -/
theorem applyConfig_stage_wrapping (env : ApplyEnv) (config : Config) (log : List Event) :
    (∀ e, env.pluginApply = .error e →
      ApplyConfig env config log = (.error (.wrap "[plugin.ApplyConfig] failed" e), log)) ∧
    (∀ e, env.pluginApply = .ok () → env.dnsApply = .error e →
      ApplyConfig env config log = (.error (.wrap "[dns.ApplyConfig] failed" e), log)) ∧
    (∀ e d c, env.pluginApply = .ok () → env.dnsApply = .ok (d, c) →
      env.serverApply d = .error e →
      ApplyConfig env config log = (.error e, log)) ∧
    (∀ e d c sv, env.pluginApply = .ok () → env.dnsApply = .ok (d, c) →
      env.serverApply d = .ok sv → env.groupApply sv d = .error e →
      ApplyConfig env config log = (.error e, log)) ∧
    (∀ e d c sv gp, env.pluginApply = .ok () → env.dnsApply = .ok (d, c) →
      env.serverApply d = .ok sv → env.groupApply sv d = .ok gp →
      env.ruleApply false (proxyNames sv gp) defaultRule d = .error e →
      ApplyConfig env config log = (.error (.wrap "[rule.ApplyConfig] failed" e), log)) ∧
    (∀ e d c sv gp rh, env.pluginApply = .ok () → env.dnsApply = .ok (d, c) →
      env.serverApply d = .ok sv → env.groupApply sv d = .ok gp →
      env.ruleApply false (proxyNames sv gp) defaultRule d = .ok rh →
      env.ruleApply true (proxyNames sv gp) defaultRule d = .error e →
      ApplyConfig env config log = (.error (.wrap "[rule.ApplyConfig] failed" e), log)) ∧
    (∀ e d c sv gp rh urh, env.pluginApply = .ok () → env.dnsApply = .ok (d, c) →
      env.serverApply d = .ok sv → env.groupApply sv d = .ok gp →
      env.ruleApply false (proxyNames sv gp) defaultRule d = .ok rh →
      env.ruleApply true (proxyNames sv gp) defaultRule d = .ok urh →
      env.filterApply = .error e →
      ApplyConfig env config log = (.error (.wrap "[filter.ApplyConfig] failed" e), log)) ∧
    (∀ e d c sv gp rh urh f, env.pluginApply = .ok () → env.dnsApply = .ok (d, c) →
      env.serverApply d = .ok sv → env.groupApply sv d = .ok gp →
      env.ruleApply false (proxyNames sv gp) defaultRule d = .ok rh →
      env.ruleApply true (proxyNames sv gp) defaultRule d = .ok urh →
      env.filterApply = .ok f → env.streamApply = .error e →
      ApplyConfig env config log = (.error (.wrap "[stream.ApplyConfig] failed" e), log)) ∧
    (∀ e d c sv gp rh urh f bf af, env.pluginApply = .ok () → env.dnsApply = .ok (d, c) →
      env.serverApply d = .ok sv → env.groupApply sv d = .ok gp →
      env.ruleApply false (proxyNames sv gp) defaultRule d = .ok rh →
      env.ruleApply true (proxyNames sv gp) defaultRule d = .ok urh →
      env.filterApply = .ok f → env.streamApply = .ok (bf, af) →
      env.newProfile (profileArgsOf config d c rh urh gp sv f bf af) = .error e →
      ApplyConfig env config log = (.error (.wrap "create profile failed" e), log)) := by
  refine ⟨?_, ?_, ?_, ?_, ?_, ?_, ?_, ?_, ?_⟩
  · intro e h1
    simp [ApplyConfig, h1]
  · intro e h1 h2
    simp [ApplyConfig, h1, h2]
  · intro e d c h1 h2 h3
    simp [ApplyConfig, h1, h2, h3]
  · intro e d c sv h1 h2 h3 h4
    simp [ApplyConfig, h1, h2, h3, h4]
  · intro e d c sv gp h1 h2 h3 h4 h5
    simp [ApplyConfig, h1, h2, h3, h4, h5]
  · intro e d c sv gp rh h1 h2 h3 h4 h5 h6
    simp [ApplyConfig, h1, h2, h3, h4, h5, h6]
  · intro e d c sv gp rh urh h1 h2 h3 h4 h5 h6 h7
    simp [ApplyConfig, h1, h2, h3, h4, h5, h6, h7]
  · intro e d c sv gp rh urh f h1 h2 h3 h4 h5 h6 h7 h8
    simp [ApplyConfig, h1, h2, h3, h4, h5, h6, h7, h8]
  · intro e d c sv gp rh urh f bf af h1 h2 h3 h4 h5 h6 h7 h8 h9
    simp [ApplyConfig, h1, h2, h3, h4, h5, h6, h7, h8, h9]

/-- Witness for the amended C6: a failing plugin stage comes back wrapped
with its stage name, while a failing server stage comes back unwrapped. -/
theorem applyConfig_stage_wrapping_witness :
    ApplyConfig envPlugFail Config.empty [] =
      (.error (.wrap "[plugin.ApplyConfig] failed" (.msg "plugin boom")), []) ∧
    ApplyConfig envSrvFail Config.empty [] = (.error (.msg "server boom"), []) :=
  ⟨(applyConfig_stage_wrapping envPlugFail Config.empty []).1 (.msg "plugin boom") rfl,
   (applyConfig_stage_wrapping envSrvFail Config.empty []).2.2.1 (.msg "server boom")
     none none rfl rfl rfl⟩

/-- Helper: `ApplyConfig` either fails leaving the trace untouched, or
succeeds appending exactly the two registration events. -/
lemma applyConfig_cases (env : ApplyEnv) (config : Config) (log : List Event) :
    (∃ e, ApplyConfig env config log = (.error e, log)) ∨
    ApplyConfig env config log =
      (.ok (), log ++ [.addProfile config.Info.Name, .addNamespace "default"]) := by
  cases hp : env.pluginApply with
  | error e =>
    exact Or.inl ⟨.wrap "[plugin.ApplyConfig] failed" e, by simp [ApplyConfig, hp]⟩
  | ok u =>
    cases hd : env.dnsApply with
    | error e =>
      exact Or.inl ⟨.wrap "[dns.ApplyConfig] failed" e, by simp [ApplyConfig, hp, hd]⟩
    | ok p =>
      obtain ⟨d, c⟩ := p
      cases hsv : env.serverApply d with
      | error e => exact Or.inl ⟨e, by simp [ApplyConfig, hp, hd, hsv]⟩
      | ok sv =>
        cases hg : env.groupApply sv d with
        | error e => exact Or.inl ⟨e, by simp [ApplyConfig, hp, hd, hsv, hg]⟩
        | ok gp =>
          cases hr1 : env.ruleApply false (proxyNames sv gp) defaultRule d with
          | error e =>
            exact Or.inl
              ⟨.wrap "[rule.ApplyConfig] failed" e, by simp [ApplyConfig, hp, hd, hsv, hg, hr1]⟩
          | ok rh =>
            cases hr2 : env.ruleApply true (proxyNames sv gp) defaultRule d with
            | error e =>
              exact Or.inl
                ⟨.wrap "[rule.ApplyConfig] failed" e,
                 by simp [ApplyConfig, hp, hd, hsv, hg, hr1, hr2]⟩
            | ok urh =>
              cases hf : env.filterApply with
              | error e =>
                exact Or.inl
                  ⟨.wrap "[filter.ApplyConfig] failed" e,
                   by simp [ApplyConfig, hp, hd, hsv, hg, hr1, hr2, hf]⟩
              | ok f =>
                cases hst : env.streamApply with
                | error e =>
                  exact Or.inl
                    ⟨.wrap "[stream.ApplyConfig] failed" e,
                     by simp [ApplyConfig, hp, hd, hsv, hg, hr1, hr2, hf, hst]⟩
                | ok q =>
                  obtain ⟨bf, af⟩ := q
                  cases hnp : env.newProfile (profileArgsOf config d c rh urh gp sv f bf af) with
                  | error e =>
                    exact Or.inl
                      ⟨.wrap "create profile failed" e,
                       by simp [ApplyConfig, hp, hd, hsv, hg, hr1, hr2, hf, hst, hnp]⟩
                  | ok pr =>
                    exact Or.inr
                      (by simp [ApplyConfig, hp, hd, hsv, hg, hr1, hr2, hf, hst, hnp])

/-- C7: `ApplyConfig` publishes nothing on any error — the trace is left
exactly as it was, so neither `global.AddProfile` nor
`namespace.AddNamespace` ran — and on success it appends exactly the two
registration events, after every stage and the profile construction have
succeeded. -/
theorem applyConfig_no_partial_publish (env : ApplyEnv) (config : Config) (log : List Event) :
    (∀ e, (ApplyConfig env config log).1 = .error e → (ApplyConfig env config log).2 = log) ∧
    ((ApplyConfig env config log).1 = .ok () →
      (ApplyConfig env config log).2 =
        log ++ [.addProfile config.Info.Name, .addNamespace "default"]) := by
  rcases applyConfig_cases env config log with ⟨e, he⟩ | hok
  · rw [he]
    exact ⟨fun _ _ => rfl, fun hcontra => by simp at hcontra⟩
  · rw [hok]
    exact ⟨fun e hcontra => by simp at hcontra, fun _ => rfl⟩

/-- Witness for C7: with every stage succeeding, the trace gains exactly
the profile registration followed by the namespace binding. -/
theorem applyConfig_no_partial_publish_witness :
    (ApplyConfig envAllOK Config.empty []).2 = [.addProfile "", .addNamespace "default"] :=
  (applyConfig_no_partial_publish envAllOK Config.empty []).2 rfl

/-- Helper: a successful include loop contributes exactly the spec-side
newline-joined include bytes, appended to the incoming buffer. -/
lemma loadIncludes_ok (env : CEnv) (refs : List StorageRef) (buf : List Nat)
    (log log2 : List Event) (out : List Nat)
    (h : loadIncludes env refs buf log = (.ok out, log2)) :
    ∃ tail, includeBytesSpec env refs = .ok tail ∧ out = buf ++ tail := by
  induction refs generalizing buf log with
  | nil =>
    simp only [loadIncludes] at h
    refine ⟨[], rfl, ?_⟩
    simp only [Prod.mk.injEq, Except.ok.injEq] at h
    simp [← h.1]
  | cons v rest ih =>
    simp only [loadIncludes] at h
    cases hs : env.storageGet v.Typ v.Params with
    | error e => simp [hs] at h
    | ok c =>
      simp only [hs] at h
      cases hl : c.loadResult with
      | error e => simp [hl] at h
      | ok data =>
        simp only [hl] at h
        cases hn : c.notifyResult with
        | error e => simp [hn] at h
        | ok u =>
          simp only [hn] at h
          obtain ⟨tail, hspec, hout⟩ :=
            ih (buf ++ 10 :: data) (log ++ [.storageGet v.Typ, .load c.Name, .notify c.Name]) h
          refine ⟨10 :: data ++ tail, ?_, ?_⟩
          · simp [includeBytesSpec, hs, hl, hspec]
          · simp [hout]

/-- Helper: full decomposition of a successful `LoadConfig` run into the
underlying registry, load, decode and re-decode results. -/
lemma loadConfig_ok_spec (env : CEnv) (typ encode : String)
    (params : List (String × String)) (log log2 : List Event) (cfg : Config)
    (h : LoadConfig env typ encode params log = (.ok cfg, log2)) :
    ∃ s m data c1 tail c2,
      env.storageGet typ params = .ok s ∧
      s.loadResult = .ok data ∧
      env.marshalGet encode params = .ok m ∧
      m.unmarshal data Config.empty = .ok c1 ∧
      includeBytesSpec env c1.Include = .ok tail ∧
      m.unmarshal (data ++ tail) c1 = .ok c2 ∧
      cfg = { c2 with Info := { Name := s.Name } } := by
  simp only [LoadConfig] at h
  cases hs : env.storageGet typ params with
  | error e => simp [hs] at h
  | ok s =>
    simp only [hs] at h
    cases hl : s.loadResult with
    | error e => simp [hl] at h
    | ok data =>
      simp only [hl] at h
      cases hm : env.marshalGet encode params with
      | error e => simp [hm] at h
      | ok m =>
        simp only [hm] at h
        cases hu1 : m.unmarshal data Config.empty with
        | error e => simp [hu1] at h
        | ok c1 =>
          simp only [hu1] at h
          cases hn : s.notifyResult with
          | error e => simp [hn] at h
          | ok u =>
            simp only [hn] at h
            cases hli : loadIncludes env c1.Include data
                (log ++ [.storageGet typ, .load s.Name, .marshalGet encode,
                  .unmarshalData, .notify s.Name]) with
            | mk res log3 =>
              simp only [hli] at h
              cases res with
              | error e => simp at h
              | ok buffer =>
                cases hu2 : m.unmarshal buffer c1 with
                | error e => simp [hu2] at h
                | ok c2 =>
                  simp only [hu2, Prod.mk.injEq, Except.ok.injEq] at h
                  obtain ⟨tail, hspec, hbuf⟩ :=
                    loadIncludes_ok env c1.Include data _ log3 buffer hli
                  refine ⟨s, m, data, c1, tail, c2, rfl, hl, rfl, hu1, hspec, ?_, h.1.symm⟩
                  rw [← hbuf]
                  exact hu2

/-- Counterexample to C1 as stated: with the identity codec and a primary
storage named "primary", the returned configuration carries that name while
the pure decode-then-re-decode result keeps the zero-valued name, so the
two configurations differ. -/
theorem loadConfig_not_pure_double_decode :
    (LoadConfig envId "file" "toml" [] []).1 =
      .ok { Config.empty with Info := { Name := "primary" } } ∧
    mergeDecodeSpec envId "file" "toml" [] = .ok Config.empty ∧
    ({ Config.empty with Info := { Name := "primary" } } : Config) ≠ Config.empty :=
  ⟨rfl, rfl, by decide⟩

/-- C1 (amended): every successful `LoadConfig` result equals the result of
decoding the primary bytes into a fresh configuration and re-decoding, into
that same object, the primary bytes followed by a newline and each
include's bytes in declaration order — followed by overwriting `Info.Name`
with the primary storage's name. -/
theorem loadConfig_merge_decode (env : CEnv) (typ encode : String)
    (params : List (String × String)) (log log2 : List Event) (cfg : Config) (s : IStorage)
    (h : LoadConfig env typ encode params log = (.ok cfg, log2))
    (hs : env.storageGet typ params = .ok s) :
    (mergeDecodeSpec env typ encode params).map
      (fun c => { c with Info := { Name := s.Name } }) = .ok cfg := by
  obtain ⟨s2, m, data, c1, tail, c2, hs2, hl, hm, hu1, hspec, hu2, hcfg⟩ :=
    loadConfig_ok_spec env typ encode params log log2 cfg h
  rw [hs] at hs2
  injection hs2 with hss
  subst hss
  simp only [mergeDecodeSpec, hs, hl, hm, hu1, hspec, hu2, Except.map]
  rw [hcfg]

/-- Witness for the amended C1 at the identity-codec environment. -/
theorem loadConfig_merge_decode_witness :
    (mergeDecodeSpec envId "file" "toml" []).map
      (fun c => { c with Info := { Name := s1.Name } }) =
      .ok { Config.empty with Info := { Name := "primary" } } :=
  loadConfig_merge_decode envId "file" "toml" [] [] _ _ s1 rfl rfl

/-- Counterexample to C8 as stated: the encoding lookup fails only after
the primary bytes were loaded — the trace records the load of "primary"
before the failing encoding resolution, while the claim requires the abort
to happen before any load is attempted. -/
theorem loadConfig_marshal_after_load :
    LoadConfig envNoCodec "file" "bogus" [] [] =
      (.error (.msg "unknown encoding"),
       [.storageGet "file", .load "primary", .marshalGet "bogus"]) :=
  rfl

/-- C8 (amended): a storage resolution failure aborts `LoadConfig` before
any load (the trace gains only the storage lookup), while the encoding
instance is resolved only after the primary load: an unknown encoding
aborts with the originating error after the primary bytes were loaded and
before any decode or include processing. -/
theorem loadConfig_resolution_order (env : CEnv) (typ encode : String)
    (params : List (String × String)) (log : List Event) :
    (∀ e, env.storageGet typ params = .error e →
      LoadConfig env typ encode params log = (.error e, log ++ [.storageGet typ])) ∧
    (∀ s data e, env.storageGet typ params = .ok s → s.loadResult = .ok data →
      env.marshalGet encode params = .error e →
      LoadConfig env typ encode params log =
        (.error e, log ++ [.storageGet typ, .load s.Name, .marshalGet encode])) := by
  constructor
  · intro e h1
    simp [LoadConfig, h1]
  · intro s data e h1 h2 h3
    simp [LoadConfig, h1, h2, h3]

/-- Witness for the amended C8 at both failing environments. -/
theorem loadConfig_resolution_order_witness :
    LoadConfig envNoStorage "file" "toml" [] [] =
      (.error (.msg "unknown storage"), [.storageGet "file"]) ∧
    LoadConfig envNoCodec "file" "bogus" [] [] =
      (.error (.msg "unknown encoding"),
       [.storageGet "file", .load "primary", .marshalGet "bogus"]) :=
  ⟨(loadConfig_resolution_order envNoStorage "file" "toml" [] []).1 (.msg "unknown storage") rfl,
   (loadConfig_resolution_order envNoCodec "file" "bogus" [] []).2 s1 [97]
     (.msg "unknown encoding") rfl rfl rfl⟩

/-- C9: the configuration returned by a successful `LoadConfig` carries, in
`Info.Name`, exactly the primary storage instance's name — whatever name
the merge-buffer re-decode may have produced is overwritten before the
configuration is returned. -/
theorem loadConfig_info_name (env : CEnv) (typ encode : String)
    (params : List (String × String)) (log log2 : List Event) (cfg : Config) (s : IStorage)
    (h : LoadConfig env typ encode params log = (.ok cfg, log2))
    (hs : env.storageGet typ params = .ok s) :
    cfg.Info.Name = s.Name := by
  obtain ⟨s2, m, data, c1, tail, c2, hs2, hl, hm, hu1, hspec, hu2, hcfg⟩ :=
    loadConfig_ok_spec env typ encode params log log2 cfg h
  rw [hs] at hs2
  injection hs2 with hss
  subst hss
  rw [hcfg]

/-- Witness for C9 at the identity-codec environment. -/
theorem loadConfig_info_name_witness :
    ({ Config.empty with Info := { Name := "primary" } } : Config).Info.Name = s1.Name :=
  loadConfig_info_name envId "file" "toml" [] [] _ _ s1 rfl rfl
